import Mathlib

/- Verification of the Discord-Reposter bot (src/reposter.ts) against its
   natural-language specification.

   The repository code is shallowly embedded.  JavaScript objects used as
   string-keyed maps become association lists kept in insertion order;
   strings become Lean strings, with find/replace patterns restricted to
   literal patterns (no regex metacharacters and no dollar escapes in the
   replacement, which is the fragment the claims exercise); the asynchronous
   walk over the platform API becomes a pure trace-producing function, and
   every platform send is recorded as an event.  Network sends are assumed
   to succeed: failures are logged and skipped by the code, and no claim
   is about the failure path.

   The platform client (discord.js) is not repository code.  It is modelled
   from the documented platform semantics the code relies on: a history
   fetch with an after cursor returns the messages strictly after the
   cursor, closest to the cursor first, in ascending (oldest first) order,
   and a pinned-message fetch hands back the pins newest first (the
   specification states the latter explicitly).  The ascending order of
   after-cursor pages is forced by the code itself: the walk advances its
   cursor with messages.last(), and the initial probe (limit 1, after 0)
   must return the oldest message of the channel, so last() must be the
   newest element of the page or the walk would never terminate. -/

set_option maxRecDepth 8000

/-- Association list lookup, first binding wins.  Mirrors JavaScript object
access, where each key is stored at most once. -/
def alookup {α : Type} : List (String × α) → String → Option α
  | [], _ => none
  | p :: rest, k => if p.1 = k then some p.2 else alookup rest k

/-- Association list update: overwrite the first binding for the key in
place, else append.  Mirrors JavaScript object assignment, which keeps the
insertion position of an existing key. -/
def aset {α : Type} : List (String × α) → String → α → List (String × α)
  | [], k, v => [(k, v)]
  | p :: rest, k, v => if p.1 = k then (k, v) :: rest else p :: aset rest k v

/-- Association list removal of a key.  Mirrors the JavaScript delete
operator. -/
def aerase {α : Type} : List (String × α) → String → List (String × α)
  | [], _ => []
  | p :: rest, k => if p.1 = k then aerase rest k else p :: aerase rest k

/-- A live forwarding rule, source keyed: destination channel id and whether
to repost through a webhook identity (the live entry of the Config
interface in reposter.ts). -/
structure LiveRule where
  channel : String
  hook : Bool
deriving DecidableEq

/-- The persisted configuration object of reposter.ts (interface Config):
seven flat string-keyed maps. -/
structure Config where
  replacements : List (String × List (String × String))
  nicknames : List (String × Bool)
  prefixes : List (String × String)
  active : List (String × Bool)
  tags : List (String × Bool)
  pins : List (String × Bool)
  live : List (String × LiveRule)
deriving DecidableEq

/-- Truthiness of the active entry for an id: an absent entry is falsy in
JavaScript, so it counts as false. -/
def activeB (cfg : Config) (id : String) : Bool :=
  (alookup cfg.active id).getD false

/-- The inactive method of reposter.ts: with a from channel given it tests
the from channel only, otherwise it tests the to channel. -/
def inactiveB (cfg : Config) (toId : String) (fromId : Option String) : Bool :=
  match fromId with
  | some f => !(activeB cfg f)
  | none => !(activeB cfg toId)

/-- Fuel-driven core of the global literal replacement performed by
str.replace(new RegExp(find, g), repl): scan left to right, replace
non-overlapping occurrences, never rescan the inserted replacement text.
The fuel is instantiated with the length of the scanned list, which the
recursion never exceeds. -/
def globalReplaceF (find repl : List Char) : Nat → List Char → List Char
  | _, [] => []
  | 0, s => s
  | fuel + 1, c :: rest =>
    if find ≠ [] ∧ find <+: (c :: rest) then
      repl ++ globalReplaceF find repl fuel (rest.drop (find.length - 1))
    else
      c :: globalReplaceF find repl fuel rest

/-- Global literal replacement of one find pattern, as performed for one
rule of the replacement table in replaceAll of reposter.ts. -/
def globalReplace (find repl s : List Char) : List Char :=
  globalReplaceF find repl s.length s

/-- Fuel-driven count of the non-overlapping occurrences of a pattern, with
the same scanning discipline as the replacement itself. -/
def countOccurF (p : List Char) : Nat → List Char → Nat
  | _, [] => 0
  | 0, _ => 0
  | fuel + 1, c :: rest =>
    if p ≠ [] ∧ p <+: (c :: rest) then
      1 + countOccurF p fuel (rest.drop (p.length - 1))
    else
      countOccurF p fuel rest

/-- Number of non-overlapping occurrences of a pattern in a list. -/
def countOccur (p s : List Char) : Nat :=
  countOccurF p s.length s

/-- The for-in loop of replaceAll in reposter.ts: apply every rule of the
table in iteration (insertion) order, each rule rewriting the output of the
previous one. -/
def applyRules : List (String × String) → List Char → List Char
  | [], s => s
  | r :: rest, s => applyRules rest (globalReplace r.1.toList r.2.toList s)

/-- replaceAll of reposter.ts: look up the replacement table of the
destination guild and apply it; without a table the body is returned
unchanged. -/
def replaceAllStr (cfg : Config) (g : String) (s : String) : String :=
  match alookup cfg.replacements g with
  | some table => String.mk (applyRules table s.toList)
  | none => s

/-- The message types of the systemMessages table of reposter.ts plus the
default type. -/
inductive MsgType
  | default
  | recipientAdd
  | recipientRemove
  | call
  | channelNameChange
  | channelIconChange
  | channelPinnedMessage
  | userJoin
deriving DecidableEq

/-- One reaction on a source message.  The known flag captures the test
emoji.id === null or client.emojis.cache.has(emoji.id): a built-in unicode
emoji or a custom emoji the bot already knows. -/
structure Reaction where
  emoji : String
  known : Bool
deriving DecidableEq

/-- One attachment of a source message, with its byte size and url. -/
structure Attachment where
  filesize : Nat
  url : String
deriving DecidableEq

/-- One embed of a source message: its subtype and the text the bot would
pass through the replacement table. -/
structure Embed where
  etype : String
  description : String
deriving DecidableEq

/-- A source message.  Ids are the snowflake order: strictly increasing
with time, so a channel history is a list sorted by id. -/
structure Msg where
  id : Nat
  authorId : String
  channelId : String
  mtype : MsgType
  content : String
  attachments : List Attachment
  embeds : List Embed
  reactions : List Reaction
deriving DecidableEq

/-- A text channel: its id and the id of its guild (the code paths the
claims exercise are guild text channels, for which channel.guild is set and
the key (channel.guild || channel).id is the guild id). -/
structure Chan where
  id : String
  guildId : String
deriving DecidableEq

/-- The alternatives of the truthy token pattern of setBoolean in
reposter.ts, in order. -/
def truthyAlts : List String :=
  ["1", "true", "yes", "confirm", "agree", "enable", "on", "positive",
   "accept", "ye", "yep", "ya", "yah", "yeah", "sure", "ok", "okay"]

/-- The alternatives of the falsy token pattern of setBoolean in
reposter.ts, in order. -/
def falsyAlts : List String :=
  ["0", "false", "no", "deny", "denied", "disagree", "disable", "off",
   "negative", "-1", "nah", "na", "nope", "stop", "end", "cease"]

/-- value.match(regex) for an unanchored alternation of literal words is
truthy exactly when some alternative occurs inside the value as a
substring. -/
def matchesAlts (v : String) (alts : List String) : Bool :=
  alts.any fun a => decide (a.toList <:+: v.toList)

/-- The three boolean configuration keys the tags, nicknames and pins
commands may pass to setBoolean. -/
inductive BoolKey
  | tags
  | nicknames
  | pins
deriving DecidableEq

/-- The map of the configuration selected by a boolean key. -/
def flagMap (cfg : Config) : BoolKey → List (String × Bool)
  | BoolKey.tags => cfg.tags
  | BoolKey.nicknames => cfg.nicknames
  | BoolKey.pins => cfg.pins

/-- Replace the map of the configuration selected by a boolean key. -/
def setFlagMap (cfg : Config) (k : BoolKey) (m : List (String × Bool)) : Config :=
  match k with
  | BoolKey.tags => { cfg with tags := m }
  | BoolKey.nicknames => { cfg with nicknames := m }
  | BoolKey.pins => { cfg with pins := m }

/-- The stored boolean flag for a guild, an absent entry reading as false
(JavaScript undefined is falsy under negation). -/
def flagLookup (cfg : Config) (k : BoolKey) (g : String) : Bool :=
  (alookup (flagMap cfg k) g).getD false

/-- JavaScript truthiness of an optional string argument: present and
non-empty. -/
def truthyS (v : Option String) : Bool :=
  match v with
  | some s => !(s.isEmpty)
  | none => false

/-- Every observable effect of the embedded code: one constructor per kind
of platform call the bot makes, in the order the code makes them. -/
inductive Payload
  | text (body : String)
  | file (url : String)
  | url (u : String)
  | embed (description : String)
deriving DecidableEq

/-- The trace events of the embedding.  fetched records one history fetch
with its limit, its after cursor and the number of messages returned;
sent records one channel.send of a payload, tagged with the id of the
source message it reposts. -/
inductive Event
  | repostingNotice
  | infoCard
  | headerPins
  | pinsFetched (n : Nat)
  | headerMessages
  | fetched (limit cursor n : Nat)
  | completeNotice
  | systemLine (author : String) (t : MsgType)
  | authorLine (author : String) (viaHook : Bool)
  | sent (p : Payload) (srcMsg : Nat)
  | reacted (emoji : String)
  | commandsCard
  | replacementsListed
  | replacementSet
  | replacementReported
  | missingArg
  | pfxChanged
  | toggleNotice (enabled : Bool)
  | terminatedNotice
  | repostRequested (target : String) (hook fromDir live : Bool)
deriving DecidableEq

/-- setBoolean of reposter.ts: an explicit token is matched against the
truthy pattern first, then against the falsy pattern; any other token, an
empty token and a missing token all flip the stored value. -/
def setBooleanT (cfg : Config) (k : BoolKey) (g : String) (v : Option String) :
    Config × List Event :=
  let enabled := flagLookup cfg k g
  let newVal : Bool :=
    match v with
    | some s =>
      if matchesAlts s truthyAlts then true
      else if matchesAlts s falsyAlts then false
      else !enabled
    | none => !enabled
  (setFlagMap cfg k (aset (flagMap cfg k) g newVal), [Event.toggleNotice newVal])

/-- setPrefix of reposter.ts: store a non-empty prefix argument, otherwise
only report the missing argument. -/
def setPfxT (cfg : Config) (g : String) (v : Option String) : Config × List Event :=
  if truthyS v then
    ({ cfg with prefixes := aset cfg.prefixes g (v.getD ("")) }, [Event.pfxChanged])
  else
    (cfg, [Event.missingArg])

/-- setReplacement of reposter.ts: the per-guild table is created first in
every case; with both arguments a rule is stored, with only a find the
existing rule is reported, otherwise the missing arguments are reported. -/
def setReplacementT (cfg : Config) (g : String) (find repl : Option String) :
    Config × List Event :=
  let table := (alookup cfg.replacements g).getD []
  let cfg0 := { cfg with replacements := aset cfg.replacements g table }
  if truthyS find ∧ truthyS repl then
    ({ cfg0 with
        replacements := aset cfg0.replacements g
          (aset table (find.getD ("")) (repl.getD (""))) },
     [Event.replacementSet])
  else if truthyS find then
    (cfg0, [Event.replacementReported])
  else
    (cfg0, [Event.missingArg])

/-- stop of reposter.ts: delete the active entry and the live entry of the
invoking channel, then announce the termination. -/
def stopT (cfg : Config) (chanId : String) : Config × List Event :=
  ({ cfg with active := aerase cfg.active chanId, live := aerase cfg.live chanId },
   [Event.terminatedNotice])

/-- The reaction replay loop inside send of reposter.ts: before each
reaction the destination is rechecked and the loop breaks when it went
inactive; a reaction is replayed when its emoji is built in or already
known to the bot. -/
def reactLoop (cfg : Config) (dst : Chan) : List Reaction → List Event
  | [] => []
  | r :: rest =>
    if inactiveB cfg dst.id none then []
    else if r.known then Event.reacted r.emoji :: reactLoop cfg dst rest
    else reactLoop cfg dst rest

/-- send of reposter.ts: return before sending when the destination is
inactive, otherwise send the payload and replay the reactions of the
source message onto it. -/
def sendT (cfg : Config) (dst : Chan) (p : Payload) (srcMsg : Nat)
    (reactions : List Reaction) : List Event :=
  if inactiveB cfg dst.id none then []
  else Event.sent p srcMsg :: reactLoop cfg dst reactions

/-- The head of sendMessage in reposter.ts: a non-default message renders
as one system line; otherwise the author identity is emitted (a webhook
rename in webhook mode, else a plain line) unless the author equals the
last processed author. -/
def headerPart (m : Msg) (hook : Bool) (author : Option String) : List Event :=
  if m.mtype ≠ MsgType.default then [Event.systemLine m.authorId m.mtype]
  else if some m.authorId ≠ author then [Event.authorLine m.authorId hook]
  else []

/-- The content block of sendMessage: a non-empty body is passed through the
replacement table of the destination guild and sent. -/
def contentPart (cfg : Config) (dst : Chan) (m : Msg) : List Event :=
  if m.content ≠ "" then
    sendT cfg dst (Payload.text (replaceAllStr cfg dst.guildId m.content)) m.id m.reactions
  else []

/-- The attachment block of sendMessage: an attachment strictly larger than
8000000 bytes is sent as a bare url, otherwise it is inlined as a file. -/
def attachPart (cfg : Config) (dst : Chan) (m : Msg) : List Event :=
  (m.attachments.map fun a =>
    sendT cfg dst (if 8000000 < a.filesize then Payload.url a.url else Payload.file a.url)
      m.id m.reactions).flatten

/-- The embed block of sendMessage: only rich embeds are reposted, their
text passed through the replacement table. -/
def embedsPart (cfg : Config) (dst : Chan) (m : Msg) : List Event :=
  (m.embeds.map fun e =>
    if e.etype = "rich" then
      sendT cfg dst (Payload.embed (replaceAllStr cfg dst.guildId e.description)) m.id
        m.reactions
    else []).flatten

/-- sendMessage of reposter.ts.  Its guard calls inactive(channel,
message.channel), which tests the active flag of the SOURCE channel of the
message, not the destination. -/
def sendMessageT (cfg : Config) (m : Msg) (dst : Chan) (hook : Bool)
    (author : Option String) : List Event :=
  if inactiveB cfg dst.id (some m.channelId) then []
  else
    headerPart m hook author ++ contentPart cfg dst m ++ attachPart cfg dst m ++
      embedsPart cfg dst m

/-- The for loop of sendMessages in reposter.ts, already running on the
reversed collection: before each message the destination is rechecked, and
the author passed on is the author of the previously replayed message. -/
def replayLoop (cfg : Config) (dst : Chan) (hook : Bool) :
    List Msg → Option String → List Event
  | [], _ => []
  | m :: rest, author =>
    if inactiveB cfg dst.id none then []
    else sendMessageT cfg m dst hook author ++ replayLoop cfg dst hook rest (some m.authorId)

/-- sendMessages of reposter.ts: return when the destination is inactive,
otherwise replay the REVERSED collection, threading the last processed
author through the loop starting from the author argument. -/
def sendMessagesT (cfg : Config) (msgs : List Msg) (dst : Chan) (hook : Bool)
    (author : Option String) : List Event :=
  if inactiveB cfg dst.id none then []
  else replayLoop cfg dst hook msgs.reverse author

/-- fetchMessages of reposter.ts, fuel driven (the fuel is instantiated
with more batches than the history can produce).  Both inactive checks call
inactive(channel, message.channel) and therefore test the SOURCE channel.
The platform returns up to 100 messages strictly after the cursor in
ascending order; the code replays them through sendMessages, advances the
cursor to messages.last() (the newest of the ascending page) and recurses;
an empty page announces Repost Complete. -/
def fetchMessagesT (cfg : Config) (hist : List Msg) (dst : Chan) (srcId : String)
    (hook : Bool) : Nat → Nat → Option String → List Event
  | 0, _, _ => []
  | fuel + 1, cursor, author =>
    if inactiveB cfg dst.id (some srcId) then []
    else
      let batch := (hist.filter fun m => cursor < m.id).take 100
      Event.fetched 100 cursor batch.length ::
        (if inactiveB cfg dst.id (some srcId) then []
         else
           match batch.getLast? with
           | some last =>
             sendMessagesT cfg batch dst hook author ++
               fetchMessagesT cfg hist dst srcId hook fuel last.id (some last.authorId)
           | none => [Event.completeNotice])

/-- The activation performed at the head of the successful repost branch:
active[to] = true, then active[from] = true. -/
def activated (cfg : Config) (src dst : Chan) : Config :=
  { cfg with active := aset (aset cfg.active dst.id true) src.id true }

/-- The pin block of repost in reposter.ts: when the pins flag of the
destination guild is set, announce the pins, fetch them (the platform
hands them back newest first) and replay them through sendMessages. -/
def pinsPart (cfg : Config) (dst : Chan) (pins : List Msg) (hook : Bool) : List Event :=
  if (alookup cfg.pins dst.guildId).getD false then
    Event.headerPins :: Event.pinsFetched pins.length :: sendMessagesT cfg pins dst hook none
  else []

/-- The ordinary-history block of repost in reposter.ts: announce the
messages, probe with limit 1 after the epoch cursor 0, repost the probe
result and walk the rest of the history from it; an empty probe announces
Repost Complete at once. -/
def historyPart (cfg : Config) (src dst : Chan) (hist : List Msg) (hook : Bool) :
    List Event :=
  let probe := (hist.filter fun m => 0 < m.id).take 1
  Event.headerMessages :: Event.fetched 1 0 probe.length ::
    (match probe with
     | [] => [Event.completeNotice]
     | first :: _ =>
       sendMessageT cfg first dst hook none ++
         fetchMessagesT cfg hist dst src.id hook (hist.length + 1) first.id
           (some first.authorId))

/-- The successful-resolution branch of repost in reposter.ts (lines
566..607): activate both channels, announce the repost, then either
register a live rule or perform the one-time copy: info card, optional pin
replay, then the ordinary history walk.  The two inactive(to, from) checks
of the branch are kept even though they test the just-activated source. -/
def repostChannel (cfg : Config) (src dst : Chan) (hist pins : List Msg)
    (hook live : Bool) : Config × List Event :=
  let cfg1 := activated cfg src dst
  if live then
    ({ cfg1 with live := aset cfg1.live src.id ⟨dst.id, hook⟩ }, [Event.repostingNotice])
  else
    (cfg1,
      Event.repostingNotice :: Event.infoCard ::
        (if inactiveB cfg1 dst.id (some src.id) then []
         else
           pinsPart cfg1 dst pins hook ++
             (if inactiveB cfg1 dst.id (some src.id) then []
              else historyPart cfg1 src dst hist hook)))

/-- repostLive of reposter.ts: look up a live rule first by the channel of
the incoming message, then by its guild; with a rule found, repost the one
message into the resolved destination through sendMessage. -/
def repostLiveT (cfg : Config) (resolve : String → Chan) (m : Msg) (guildId : String) :
    List Event :=
  let rule :=
    match alookup cfg.live m.channelId with
    | some r => some r
    | none => alookup cfg.live guildId
  match rule with
  | some r => sendMessageT cfg m (resolve r.channel) r.hook none
  | none => []

/-- Substring containment, as indexOf(needle) !== -1 on strings. -/
def containsStr (needle hay : String) : Bool :=
  decide (needle.toList <:+: hay.toList)

/-- The message handler installed by run in reposter.ts: repostLive runs
first on every message; bot-authored messages are then dropped before any
command parsing; for the rest the lowercased content is split on spaces
and dispatched when the first token starts with the prefix followed by
repost.  The default branch is recorded as a repost request marker with
the parsed target and modifiers (the resolver itself is modelled by
repostChannel). -/
def runStep (cfg : Config) (resolve : String → Chan) (chan : Chan) (m : Msg)
    (bot : Bool) : List Event × Config :=
  let liveEv := repostLiveT cfg resolve m chan.guildId
  if bot then (liveEv, cfg)
  else
    let args := (m.content.toLower).splitOn (" ")
    let pfx := (alookup cfg.prefixes chan.guildId).getD ("/")
    let cmd0 := args.headD ("")
    if cmd0.startsWith (pfx ++ ("repost")) then
      match args.get? 1 with
      | none => (liveEv ++ [Event.commandsCard], cfg)
      | some a1 =>
        if a1 = ("help") ∨ a1 = ("commands") then (liveEv ++ [Event.commandsCard], cfg)
        else if a1 = ("replacements") then (liveEv ++ [Event.replacementsListed], cfg)
        else if a1 = ("replace") then
          let r := setReplacementT cfg chan.guildId (args.get? 2) (args.get? 3)
          (liveEv ++ r.2, r.1)
        else if a1 = ("prefix") then
          let r := setPfxT cfg chan.guildId (args.get? 2)
          (liveEv ++ r.2, r.1)
        else if a1 = ("tags") then
          let r := setBooleanT cfg BoolKey.tags chan.guildId (args.get? 2)
          (liveEv ++ r.2, r.1)
        else if a1 = ("nicknames") then
          let r := setBooleanT cfg BoolKey.nicknames chan.guildId (args.get? 2)
          (liveEv ++ r.2, r.1)
        else if a1 = ("pins") then
          let r := setBooleanT cfg BoolKey.pins chan.guildId (args.get? 2)
          (liveEv ++ r.2, r.1)
        else if a1 ∈ ["stop", "halt", "cease", "terminate", "suspend", "cancel",
            "die", "end"] then
          let r := stopT cfg chan.id
          (liveEv ++ r.2, r.1)
        else
          let hookB := containsStr ("hook") cmd0
          let liveB := containsStr ("live") cmd0
          match args.get? 2 with
          | some l =>
            if !(l.isEmpty) then
              (liveEv ++ [Event.repostRequested l hookB (a1 = ("from")) liveB], cfg)
            else
              (liveEv ++ [Event.repostRequested a1 hookB false liveB], cfg)
          | none => (liveEv ++ [Event.repostRequested a1 hookB false liveB], cfg)
    else (liveEv, cfg)

/-- The ids of the source messages whose text body was sent, in emission
order. -/
def contentIds (tr : List Event) : List Nat :=
  tr.filterMap fun e =>
    match e with
    | Event.sent (Payload.text _) i => some i
    | _ => none

/-- The author identity lines of a trace, in emission order (plain lines
and webhook renames alike). -/
def authorLines (tr : List Event) : List String :=
  tr.filterMap fun e =>
    match e with
    | Event.authorLine a _ => some a
    | _ => none

/-- The sizes returned by the limit-100 history fetches of a trace, in
order. -/
def histReturns (tr : List Event) : List Nat :=
  tr.filterMap fun e =>
    match e with
    | Event.fetched 100 _ n => some n
    | _ => none

/-- The sizes returned by the limit-1 probe fetches of a trace, in order. -/
def probeReturns (tr : List Event) : List Nat :=
  tr.filterMap fun e =>
    match e with
    | Event.fetched 1 _ n => some n
    | _ => none

/-- The empty starting configuration of the bot. -/
def cfgE : Config := ⟨[], [], [], [], [], [], []⟩

/-- The source channel of the concrete scenarios. -/
def srcC : Chan := ⟨"src", "gsrc"⟩

/-- The destination channel of the concrete scenarios. -/
def dstC : Chan := ⟨"dst", "gdst"⟩

/-- An ordinary default-type message with a one-character body, living in
the source channel. -/
def mkM (i : Nat) (a : String) : Msg :=
  ⟨i, a, "src", MsgType.default, "m", [], [], []⟩

/-- A source history of exactly 250 ordinary messages with ids 1..250. -/
def hist250 : List Msg :=
  (List.range 250).map fun i => mkM (i + 1) ("A")

/-- The trace of a one-time copy of the 250-message source, pins disabled. -/
def trace250 : List Event :=
  (repostChannel cfgE srcC dstC hist250 [] false false).2

/-- A source history of three messages authored alternately: A, B, A. -/
def hist3 : List Msg :=
  [mkM 1 ("A"), mkM 2 ("B"), mkM 3 ("A")]

/-- The trace of a one-time copy of the three-message alternating source. -/
def traceAlt3 : List Event :=
  (repostChannel cfgE srcC dstC hist3 [] false false).2

/-- A configuration in which only the source channel is active: the state
right after the destination channel lost its active flag mid-walk. -/
def cfgSrcOnly : Config := ⟨[], [], [], [("src", true)], [], [], []⟩

/-- A two-message source history. -/
def hist2 : List Msg :=
  [mkM 1 ("A"), mkM 2 ("A")]

/-- The one-rule replacement table rewriting a to aa. -/
def table5 : List (String × String) := [(("a"), ("aa"))]

/-- A configuration holding two active channels and one live rule, for the
stop frame scenario. -/
def cfgS : Config :=
  ⟨[], [], [], [("a", true), ("b", true)], [], [], [("a", ⟨("d"), false⟩)]⟩

/-- A configuration with the pins flag enabled for the destination guild. -/
def cfg4 : Config := ⟨[], [], [], [], [], [("gdst", true)], []⟩

/-- Two pinned source messages handed back newest first (ids 2 then 1). -/
def pins4 : List Msg := [mkM 2 ("A"), mkM 1 ("B")]

/-- A configuration in which both the source and the destination channel
are active. -/
def cfgA : Config := ⟨[], [], [], [("src", true), ("dst", true)], [], [], []⟩

/-- A source message carrying one attachment of exactly 8000000 bytes. -/
def m8M : Msg :=
  ⟨1, ("A"), ("src"), MsgType.default, ("m"), [⟨8000000, ("u")⟩], [], []⟩

/-- A source message carrying one attachment of 8000001 bytes. -/
def m9M : Msg :=
  ⟨1, ("A"), ("src"), MsgType.default, ("m"), [⟨8000001, ("u")⟩], [], []⟩

/-- A configuration with a live rule forwarding the source channel into the
destination channel without a webhook. -/
def cfgL : Config :=
  ⟨[], [], [], [("src", true)], [], [], [("src", ⟨("dst"), false⟩)]⟩

theorem alookup_aset_self {α : Type} (l : List (String × α)) (k : String) (v : α) :
    alookup (aset l k v) k = some v := by
  induction l with
  | nil => simp [aset, alookup]
  | cons p rest ih =>
    by_cases h : p.1 = k
    · simp [aset, h, alookup]
    · simp [aset, h, alookup, ih]

theorem alookup_aset_ne {α : Type} (l : List (String × α)) (k k2 : String) (v : α)
    (h : k2 ≠ k) : alookup (aset l k v) k2 = alookup l k2 := by
  induction l with
  | nil => simp [aset, alookup, Ne.symm h]
  | cons p rest ih =>
    by_cases hp : p.1 = k
    · simp [aset, hp, alookup, Ne.symm h]
    · simp [aset, hp, alookup, ih]

theorem alookup_aerase_self {α : Type} (l : List (String × α)) (k : String) :
    alookup (aerase l k) k = none := by
  induction l with
  | nil => simp [aerase, alookup]
  | cons p rest ih =>
    by_cases h : p.1 = k
    · simp [aerase, h, ih]
    · simp [aerase, h, alookup, ih]

theorem alookup_aerase_ne {α : Type} (l : List (String × α)) (k k2 : String)
    (h : k2 ≠ k) : alookup (aerase l k) k2 = alookup l k2 := by
  induction l with
  | nil => simp [aerase]
  | cons p rest ih =>
    by_cases hp : p.1 = k
    · simp [aerase, hp, alookup, Ne.symm h, ih]
    · simp [aerase, hp, alookup, ih]

theorem activeB_activated_src (cfg : Config) (src dst : Chan) :
    activeB (activated cfg src dst) src.id = true := by
  simp [activated, activeB, alookup_aset_self]

theorem activeB_activated_dst (cfg : Config) (src dst : Chan) :
    activeB (activated cfg src dst) dst.id = true := by
  by_cases h : dst.id = src.id
  · simp [activated, activeB, h, alookup_aset_self]
  · simp [activated, activeB, alookup_aset_ne _ _ _ _ h, alookup_aset_self]

theorem repostChannel_fst (cfg : Config) (src dst : Chan) (hist pins : List Msg)
    (hook : Bool) :
    (repostChannel cfg src dst hist pins hook false).1 = activated cfg src dst := by
  simp [repostChannel]

theorem globalReplaceF_of_not_infix (find repl : List Char) :
    ∀ (fuel : Nat) (s : List Char), ¬ (find <:+: s) →
      globalReplaceF find repl fuel s = s := by
  intro fuel
  induction fuel with
  | zero =>
    intro s _
    cases s <;> simp [globalReplaceF]
  | succ n ih =>
    intro s h
    cases s with
    | nil => simp [globalReplaceF]
    | cons c rest =>
      have hcond : ¬ (find ≠ [] ∧ find <+: (c :: rest)) := by
        rintro ⟨-, hpre⟩
        exact h hpre.isInfix
      have hrest : ¬ (find <:+: rest) := fun hi => h (List.infix_cons hi)
      simp only [globalReplaceF, if_neg hcond]
      rw [ih rest hrest]

theorem globalReplace_of_not_infix (find repl s : List Char)
    (h : ¬ (find <:+: s)) : globalReplace find repl s = s :=
  globalReplaceF_of_not_infix find repl s.length s h

theorem applyRules_of_no_find (table : List (String × String)) :
    ∀ (s : List Char), (∀ p ∈ table, ¬ (p.1.toList <:+: s)) →
      applyRules table s = s := by
  induction table with
  | nil => intro s _; rfl
  | cons r rest ih =>
    intro s h
    have hr : ¬ (r.1.toList <:+: s) := h r (List.mem_cons_self r rest)
    simp only [applyRules, globalReplace_of_not_infix r.1.toList r.2.toList s hr]
    exact ih s fun p hp => h p (List.mem_cons_of_mem r hp)

@[simp] theorem contentIds_nil : contentIds [] = [] := rfl

@[simp] theorem contentIds_append (l1 l2 : List Event) :
    contentIds (l1 ++ l2) = contentIds l1 ++ contentIds l2 :=
  List.filterMap_append l1 l2 _

@[simp] theorem contentIds_headerPart (m : Msg) (hook : Bool) (author : Option String) :
    contentIds (headerPart m hook author) = [] := by
  unfold headerPart
  split_ifs <;> rfl

@[simp] theorem contentIds_cons_reacted (s : String) (l : List Event) :
    contentIds (Event.reacted s :: l) = contentIds l := rfl

@[simp] theorem contentIds_cons_sent_text (b : String) (i : Nat) (l : List Event) :
    contentIds (Event.sent (Payload.text b) i :: l) = i :: contentIds l := rfl

@[simp] theorem contentIds_cons_sent_file (u : String) (i : Nat) (l : List Event) :
    contentIds (Event.sent (Payload.file u) i :: l) = contentIds l := rfl

@[simp] theorem contentIds_cons_sent_url (u : String) (i : Nat) (l : List Event) :
    contentIds (Event.sent (Payload.url u) i :: l) = contentIds l := rfl

@[simp] theorem contentIds_cons_sent_embed (d : String) (i : Nat) (l : List Event) :
    contentIds (Event.sent (Payload.embed d) i :: l) = contentIds l := rfl

@[simp] theorem contentIds_cons_author (a : String) (hk : Bool) (l : List Event) :
    contentIds (Event.authorLine a hk :: l) = contentIds l := rfl

@[simp] theorem contentIds_cons_system (a : String) (t : MsgType) (l : List Event) :
    contentIds (Event.systemLine a t :: l) = contentIds l := rfl

@[simp] theorem contentIds_reactLoop (cfg : Config) (dst : Chan) (rs : List Reaction) :
    contentIds (reactLoop cfg dst rs) = [] := by
  induction rs with
  | nil => rfl
  | cons r rest ih =>
    simp only [reactLoop]
    split_ifs with h1 h2
    · rfl
    · simpa using ih
    · exact ih

theorem contentIds_sendT_text (cfg : Config) (dst : Chan) (b : String) (i : Nat)
    (rs : List Reaction) (hd : activeB cfg dst.id = true) :
    contentIds (sendT cfg dst (Payload.text b) i rs) = [i] := by
  have hg : inactiveB cfg dst.id none = false := by simp [inactiveB, hd]
  simp [sendT, hg]

theorem contentIds_sendT_nontext (cfg : Config) (dst : Chan) (p : Payload) (i : Nat)
    (rs : List Reaction) (h : ∀ b, p ≠ Payload.text b) :
    contentIds (sendT cfg dst p i rs) = [] := by
  unfold sendT
  split_ifs
  · rfl
  · cases p with
    | text b => exact absurd rfl (h b)
    | file u => simp
    | url u => simp
    | embed d => simp

@[simp] theorem contentIds_attachPart (cfg : Config) (dst : Chan) (m : Msg) :
    contentIds (attachPart cfg dst m) = [] := by
  unfold attachPart
  induction m.attachments with
  | nil => rfl
  | cons a rest ih =>
    simp only [List.map_cons, List.flatten_cons, contentIds_append, ih,
      List.append_nil]
    split_ifs with h
    · exact contentIds_sendT_nontext cfg dst _ m.id m.reactions fun b hb => by cases hb
    · exact contentIds_sendT_nontext cfg dst _ m.id m.reactions fun b hb => by cases hb

@[simp] theorem contentIds_embedsPart (cfg : Config) (dst : Chan) (m : Msg) :
    contentIds (embedsPart cfg dst m) = [] := by
  unfold embedsPart
  induction m.embeds with
  | nil => rfl
  | cons e rest ih =>
    simp only [List.map_cons, List.flatten_cons, contentIds_append, ih,
      List.append_nil]
    split_ifs with h
    · exact contentIds_sendT_nontext cfg dst _ m.id m.reactions fun b hb => by cases hb
    · rfl

theorem contentIds_sendMessageT (cfg : Config) (m : Msg) (dst : Chan) (hook : Bool)
    (author : Option String) (hs : activeB cfg m.channelId = true)
    (hd : activeB cfg dst.id = true) (hc : m.content ≠ "") :
    contentIds (sendMessageT cfg m dst hook author) = [m.id] := by
  have hg : inactiveB cfg dst.id (some m.channelId) = false := by simp [inactiveB, hs]
  simp [sendMessageT, hg, contentPart, hc, contentIds_sendT_text cfg dst _ m.id m.reactions hd]

theorem contentIds_replayLoop (cfg : Config) (dst : Chan) (hook : Bool)
    (hd : activeB cfg dst.id = true) :
    ∀ (l : List Msg) (author : Option String),
      (∀ m ∈ l, m.content ≠ "" ∧ activeB cfg m.channelId = true) →
      contentIds (replayLoop cfg dst hook l author) = l.map fun m => m.id := by
  intro l
  induction l with
  | nil => intro _ _; rfl
  | cons m rest ih =>
    intro author h
    have hm := h m (List.mem_cons_self m rest)
    have hg : inactiveB cfg dst.id none = false := by simp [inactiveB, hd]
    simp only [replayLoop, hg, Bool.false_eq_true, if_false, contentIds_append,
      List.map_cons]
    rw [contentIds_sendMessageT cfg m dst hook author hm.2 hd hm.1,
      ih (some m.authorId) fun x hx => h x (List.mem_cons_of_mem m hx)]
    rfl

theorem flagMap_setFlagMap (cfg : Config) (k : BoolKey) (m : List (String × Bool)) :
    flagMap (setFlagMap cfg k m) k = m := by
  cases k <;> rfl

theorem flagLookup_write (cfg : Config) (k : BoolKey) (g : String) (v : Bool) :
    flagLookup (setFlagMap cfg k (aset (flagMap cfg k) g v)) k g = v := by
  simp [flagLookup, flagMap_setFlagMap, alookup_aset_self]

/-- C2, amended.  For the tags, nicknames and pins toggles: a token matching
the truthy pattern always stores true; a token matching the falsy pattern
stores false only when it does not also match the truthy pattern, which is
tested first (the falsy alternative -1 contains the truthy alternative 1
and therefore stores true); a missing token stores the negation of the
current value, an absent entry counting as false. -/
theorem C2_amended (cfg : Config) (k : BoolKey) (g : String) (s : String) :
    (matchesAlts s truthyAlts = true →
      flagLookup (setBooleanT cfg k g (some s)).1 k g = true) ∧
    (matchesAlts s truthyAlts = false → matchesAlts s falsyAlts = true →
      flagLookup (setBooleanT cfg k g (some s)).1 k g = false) ∧
    flagLookup (setBooleanT cfg k g none).1 k g = !(flagLookup cfg k g) := by
  refine ⟨fun h => ?_, fun h1 h2 => ?_, ?_⟩
  · simp [setBooleanT, h, flagLookup_write]
  · simp [setBooleanT, h1, h2, flagLookup_write]
  · simp [setBooleanT, flagLookup_write]

/-- C2, witness: a truthy token, a falsy-only token and a missing token on
the empty configuration. -/
theorem C2_witness :
    flagLookup (setBooleanT cfgE BoolKey.tags ("g") (some ("yes"))).1 BoolKey.tags ("g")
      = true ∧
    flagLookup (setBooleanT cfgE BoolKey.tags ("g") (some ("no"))).1 BoolKey.tags ("g")
      = false ∧
    flagLookup (setBooleanT cfgE BoolKey.tags ("g") none).1 BoolKey.tags ("g") = true := by
  refine ⟨(C2_amended cfgE BoolKey.tags ("g") ("yes")).1 (by decide),
    (C2_amended cfgE BoolKey.tags ("g") ("no")).2.1 (by decide) (by decide), ?_⟩
  rw [(C2_amended cfgE BoolKey.tags ("g") ("x")).2.2]
  decide

/-- C2, counterexample: the token -1 belongs to the recognized falsy word
list, yet the toggle stores true, because the match against the truthy
pattern runs first and -1 contains the truthy alternative 1. -/
theorem C2_counterexample :
    ("-1") ∈ falsyAlts ∧
    flagLookup (setBooleanT cfgE BoolKey.tags ("g") (some ("-1"))).1 BoolKey.tags ("g")
      = true := by
  decide

/-- C5, amended.  Re-applying the replacement table returns the once-applied
output unchanged whenever no find pattern of the table occurs in that
output at all; the absence of OTHER rules find patterns from the
replacement values does not suffice (see the counterexample, where the
single rule contains its own find pattern in its replacement value). -/
theorem C5_amended (table : List (String × String)) (body : List Char)
    (h : ∀ p ∈ table, ¬ (p.1.toList <:+: applyRules table body)) :
    applyRules table (applyRules table body) = applyRules table body :=
  applyRules_of_no_find table (applyRules table body) h

/-- C5, witness: one rule rewriting a to b, on the body a. -/
theorem C5_witness :
    applyRules [(("a"), ("b"))] (applyRules [(("a"), ("b"))] ("a").toList) =
      applyRules [(("a"), ("b"))] ("a").toList :=
  C5_amended [(("a"), ("b"))] ("a").toList (by decide)

/-- C5, counterexample: the table with the single rule a to aa, on the body
a, which contains the find key exactly once; no replacement value contains
the find pattern of ANOTHER rule (there is no other rule), the first
application substitutes as claimed, yet the second application changes the
output again, refuting the claimed equivalence. -/
theorem C5_counterexample :
    countOccur ("a").toList ("a").toList = 1 ∧
    (∀ p ∈ table5, ∀ q ∈ table5, p ≠ q → ¬ (q.1.toList <:+: p.2.toList)) ∧
    applyRules table5 ("a").toList = ("aa").toList ∧
    applyRules table5 (applyRules table5 ("a").toList) ≠
      applyRules table5 ("a").toList := by
  decide

/-- C8.  The stop command removes exactly the active entry and the live
entry of the invoking channel: the replacements, nicknames, prefixes, tags
and pins maps are untouched, and the active and live entries of every
other identifier read as before. -/
theorem C8_stop_frame (cfg : Config) (id o : String) (h : o ≠ id) :
    (stopT cfg id).1.replacements = cfg.replacements ∧
    (stopT cfg id).1.nicknames = cfg.nicknames ∧
    (stopT cfg id).1.prefixes = cfg.prefixes ∧
    (stopT cfg id).1.tags = cfg.tags ∧
    (stopT cfg id).1.pins = cfg.pins ∧
    alookup (stopT cfg id).1.active id = none ∧
    alookup (stopT cfg id).1.live id = none ∧
    alookup (stopT cfg id).1.active o = alookup cfg.active o ∧
    alookup (stopT cfg id).1.live o = alookup cfg.live o := by
  refine ⟨rfl, rfl, rfl, rfl, rfl, ?_, ?_, ?_, ?_⟩
  · exact alookup_aerase_self cfg.active id
  · exact alookup_aerase_self cfg.live id
  · exact alookup_aerase_ne cfg.active id o h
  · exact alookup_aerase_ne cfg.live id o h

/-- C8, witness: stopping channel a in a configuration holding two active
channels and one live rule. -/
theorem C8_witness :
    (stopT cfgS ("a")).1.replacements = cfgS.replacements ∧
    (stopT cfgS ("a")).1.nicknames = cfgS.nicknames ∧
    (stopT cfgS ("a")).1.prefixes = cfgS.prefixes ∧
    (stopT cfgS ("a")).1.tags = cfgS.tags ∧
    (stopT cfgS ("a")).1.pins = cfgS.pins ∧
    alookup (stopT cfgS ("a")).1.active ("a") = none ∧
    alookup (stopT cfgS ("a")).1.live ("a") = none ∧
    alookup (stopT cfgS ("a")).1.active ("b") = alookup cfgS.active ("b") ∧
    alookup (stopT cfgS ("a")).1.live ("b") = alookup cfgS.live ("b") :=
  C8_stop_frame cfgS ("a") ("b") (by decide)

/-- C10, amended.  With the destination inactive, the content-send helper
emits nothing and the reaction replay loop emits nothing; the
single-message repost routine, however, guards on the active flag of the
SOURCE channel of the message: it returns before rendering exactly when
that source flag is absent or false. -/
theorem C10_amended (cfg : Config) (dst : Chan) (p : Payload) (i : Nat)
    (rs : List Reaction) (m : Msg) (hook : Bool) (author : Option String) :
    (activeB cfg dst.id = false → sendT cfg dst p i rs = []) ∧
    (activeB cfg dst.id = false → reactLoop cfg dst rs = []) ∧
    (activeB cfg m.channelId = false → sendMessageT cfg m dst hook author = []) := by
  refine ⟨fun h => ?_, fun h => ?_, fun h => ?_⟩
  · simp [sendT, inactiveB, h]
  · cases rs with
    | nil => rfl
    | cons r rest => simp [reactLoop, inactiveB, h]
  · simp [sendMessageT, inactiveB, h]

/-- C10, witness: an inactive destination silences sendT and the reaction
loop, and an inactive source silences sendMessage. -/
theorem C10_witness :
    sendT cfgSrcOnly dstC (Payload.text ("x")) 1 [] = [] ∧
    reactLoop cfgSrcOnly dstC [⟨("e"), true⟩] = [] ∧
    sendMessageT cfgE (mkM 1 ("A")) dstC false none = [] :=
  ⟨(C10_amended cfgSrcOnly dstC (Payload.text ("x")) 1 [] (mkM 1 ("A")) false none).1
      (by decide),
   (C10_amended cfgSrcOnly dstC (Payload.text ("x")) 1 [⟨("e"), true⟩] (mkM 1 ("A"))
      false none).2.1 (by decide),
   (C10_amended cfgE dstC (Payload.text ("x")) 1 [] (mkM 1 ("A")) false none).2.2
      (by decide)⟩

/-- C10, counterexample: with the destination inactive but the source
active, the single-message repost routine does NOT return before rendering:
it still emits the author identity line toward the inactive destination
(only the body send underneath is suppressed). -/
theorem C10_counterexample :
    activeB cfgSrcOnly dstC.id = false ∧
    sendMessageT cfgSrcOnly (mkM 2 ("B")) dstC false (some ("A")) =
      [Event.authorLine ("B") false] := by
  decide

/-- C7, amended.  Clearing the SOURCE channel active flag aborts the walk
at the next fetch boundary (fetchMessages returns early and emits nothing);
clearing only the DESTINATION flag silences sendMessages but does not stop
the fetch boundary checks, which test the source (see the counterexample);
and a later repost into the destination assigns both active flags afresh
and starts a fresh walk from the info card, the pin block and the epoch
probe, rather than resuming the aborted one. -/
theorem C7_amended (cfg : Config) (hist : List Msg) (dst : Chan) (srcId : String)
    (hook : Bool) (fuel cursor : Nat) (author : Option String) (msgs : List Msg)
    (cfg2 : Config) (src2 dst2 : Chan) (hist2x pins2 : List Msg) (hook2 : Bool) :
    (activeB cfg srcId = false →
      fetchMessagesT cfg hist dst srcId hook fuel cursor author = []) ∧
    (activeB cfg dst.id = false → sendMessagesT cfg msgs dst hook author = []) ∧
    activeB (repostChannel cfg2 src2 dst2 hist2x pins2 hook2 false).1 src2.id = true ∧
    activeB (repostChannel cfg2 src2 dst2 hist2x pins2 hook2 false).1 dst2.id = true ∧
    (repostChannel cfg2 src2 dst2 hist2x pins2 hook2 false).2 =
      Event.repostingNotice :: Event.infoCard ::
        (pinsPart (activated cfg2 src2 dst2) dst2 pins2 hook2 ++
          historyPart (activated cfg2 src2 dst2) src2 dst2 hist2x hook2) := by
  refine ⟨fun h => ?_, fun h => ?_, ?_, ?_, ?_⟩
  · cases fuel with
    | zero => rfl
    | succ n => simp [fetchMessagesT, inactiveB, h]
  · simp [sendMessagesT, inactiveB, h]
  · rw [repostChannel_fst]
    exact activeB_activated_src cfg2 src2 dst2
  · rw [repostChannel_fst]
    exact activeB_activated_dst cfg2 src2 dst2
  · have hg : inactiveB (activated cfg2 src2 dst2) dst2.id (some src2.id) = false := by
      simp [inactiveB, activeB_activated_src]
    simp [repostChannel, hg]

/-- C7, witness: an inactive source empties the walk, an inactive
destination empties the replay, and a repost activates the source afresh. -/
theorem C7_witness :
    fetchMessagesT cfgE hist2 dstC ("src") false 3 1 none = [] ∧
    sendMessagesT cfgSrcOnly hist2 dstC false none = [] ∧
    activeB (repostChannel cfgE srcC dstC hist2 [] false false).1 srcC.id = true :=
  ⟨(C7_amended cfgE hist2 dstC ("src") false 3 1 none [] cfgE srcC dstC hist2 []
      false).1 (by decide),
   (C7_amended cfgSrcOnly hist2 dstC ("src") false 3 1 none hist2 cfgE srcC dstC
      hist2 [] false).2.1 (by decide),
   (C7_amended cfgE hist2 dstC ("src") false 3 1 none [] cfgE srcC dstC hist2 []
      false).2.2.1⟩

/-- C7, counterexample: with only the destination flag cleared mid-walk (the
source still active), the claimed abort does not happen: the boundary
checks before and after each fetch test the source, so the walk keeps
fetching to exhaustion and even emits the completion notice; nothing
returns early at the fetch boundaries. -/
theorem C7_counterexample :
    activeB cfgSrcOnly dstC.id = false ∧
    fetchMessagesT cfgSrcOnly hist2 dstC ("src") false 3 1 (some ("A")) =
      [Event.fetched 100 1 1, Event.fetched 100 2 0, Event.completeNotice] := by
  decide

/-- C9.  The live-forward lookup runs before the bot-author guard: for a
bot-authored message the handler performs exactly the live forward and
leaves the configuration untouched (no command parsing), and whenever a
live rule is keyed by the channel of the message, the forward applies the
single-message repost routine into the resolved destination of the rule. -/
theorem C9_live_before_bot_guard (cfg : Config) (resolve : String → Chan)
    (chan : Chan) (m : Msg) :
    runStep cfg resolve chan m true = (repostLiveT cfg resolve m chan.guildId, cfg) ∧
    (∀ r : LiveRule, alookup cfg.live m.channelId = some r →
      repostLiveT cfg resolve m chan.guildId =
        sendMessageT cfg m (resolve r.channel) r.hook none) := by
  constructor
  · rfl
  · intro r hr
    simp [repostLiveT, hr]

/-- C9, witness: a bot-authored message in a channel with a live rule is
forwarded through sendMessage and the configuration is unchanged. -/
theorem C9_witness :
    runStep cfgL (fun _ => dstC) srcC (mkM 1 ("A")) true =
      (sendMessageT cfgL (mkM 1 ("A")) dstC false none, cfgL) := by
  have h := C9_live_before_bot_guard cfgL (fun _ => dstC) srcC (mkM 1 ("A"))
  rw [h.1, h.2 ⟨("dst"), false⟩ (by decide)]

/-- C6.  A reposted attachment of at most 8000000 bytes is sent inlined as
a file and one strictly larger is sent as a bare url: the attachment block
of the single-message routine emits exactly the send selected by that
threshold. -/
theorem C6_attachment_threshold (cfg : Config) (dst : Chan) (m : Msg) (hook : Bool)
    (author : Option String) (a : Attachment)
    (hs : activeB cfg m.channelId = true) (hd : activeB cfg dst.id = true)
    (ha : m.attachments = [a]) (hr : m.reactions = []) (he : m.embeds = []) :
    sendMessageT cfg m dst hook author =
      headerPart m hook author ++ contentPart cfg dst m ++
        [Event.sent (if a.filesize ≤ 8000000 then Payload.file a.url else
          Payload.url a.url) m.id] := by
  have hg : inactiveB cfg dst.id (some m.channelId) = false := by simp [inactiveB, hs]
  have hg2 : inactiveB cfg dst.id none = false := by simp [inactiveB, hd]
  by_cases hsz : a.filesize ≤ 8000000
  · simp [sendMessageT, hg, attachPart, ha, he, embedsPart, sendT, hg2, hr, reactLoop,
      hsz, not_lt.mpr hsz]
  · simp [sendMessageT, hg, attachPart, ha, he, embedsPart, sendT, hg2, hr, reactLoop,
      hsz, not_le.mp hsz]

/-- C6, witness: an attachment of exactly 8000000 bytes is inlined as a
file and one of 8000001 bytes is sent as a bare url. -/
theorem C6_witness :
    sendMessageT cfgA m8M dstC false none =
      headerPart m8M false none ++ contentPart cfgA dstC m8M ++
        [Event.sent (Payload.file ("u")) 1] ∧
    sendMessageT cfgA m9M dstC false none =
      headerPart m9M false none ++ contentPart cfgA dstC m9M ++
        [Event.sent (Payload.url ("u")) 1] :=
  ⟨(C6_attachment_threshold cfgA dstC m8M false none ⟨8000000, ("u")⟩ (by decide)
      (by decide) rfl rfl rfl).trans (by decide),
   (C6_attachment_threshold cfgA dstC m9M false none ⟨8000001, ("u")⟩ (by decide)
      (by decide) rfl rfl rfl).trans (by decide)⟩

/-- C4.  For a one-time copy with pin reposting enabled for the destination
guild, the repost trace is exactly the info card, the pin header and pin
fetch, the full pin replay, and only then the ordinary-history block: every
pinned message is replayed before any ordinary-history message.  The pin
replay emits the pins in reversed collection order, so the newest-first
collection handed back by the platform comes out oldest first: a strictly
descending id sequence of pins is emitted strictly ascending. -/
theorem C4_pins_precede (cfg : Config) (src dst : Chan) (hist pins : List Msg)
    (hook : Bool)
    (hp : (alookup cfg.pins dst.guildId).getD false = true)
    (hc : ∀ m ∈ pins, m.content ≠ "" ∧ m.channelId = src.id) :
    ((repostChannel cfg src dst hist pins hook false).2 =
      Event.repostingNotice :: Event.infoCard :: Event.headerPins ::
        Event.pinsFetched pins.length ::
        (replayLoop (activated cfg src dst) dst hook pins.reverse none ++
          historyPart (activated cfg src dst) src dst hist hook)) ∧
    contentIds (replayLoop (activated cfg src dst) dst hook pins.reverse none) =
      (pins.map fun m => m.id).reverse ∧
    (List.Chain' (fun a b => b < a) (pins.map fun m => m.id) →
      List.Chain' (fun a b => a < b)
        (contentIds (replayLoop (activated cfg src dst) dst hook pins.reverse none))) := by
  have hsrc := activeB_activated_src cfg src dst
  have hdst := activeB_activated_dst cfg src dst
  have hg1 : inactiveB (activated cfg src dst) dst.id (some src.id) = false := by
    simp [inactiveB, hsrc]
  have hg2 : inactiveB (activated cfg src dst) dst.id none = false := by
    simp [inactiveB, hdst]
  have hpins : (activated cfg src dst).pins = cfg.pins := rfl
  have h2 : contentIds (replayLoop (activated cfg src dst) dst hook pins.reverse none) =
      (pins.map fun m => m.id).reverse := by
    rw [contentIds_replayLoop (activated cfg src dst) dst hook hdst pins.reverse none
      fun m hm => ?_, List.map_reverse]
    have hm2 := hc m (List.mem_reverse.mp hm)
    exact ⟨hm2.1, hm2.2 ▸ hsrc⟩
  refine ⟨?_, h2, fun hdesc => ?_⟩
  · simp [repostChannel, hg1, pinsPart, hpins, hp, sendMessagesT, hg2]
  · rw [h2]
    exact List.chain'_reverse.mpr hdesc

/-- C4, witness: two pins handed back newest first (ids 2 then 1) with the
pins flag set for the destination guild come out in ascending id order. -/
theorem C4_witness :
    List.Chain' (fun a b => a < b)
      (contentIds (replayLoop (activated cfg4 srcC dstC) dstC false pins4.reverse none)) :=
  (C4_pins_precede cfg4 srcC dstC [] pins4 false (by decide) (by decide)).2.2
    (by show List.Chain' (fun a b => b < a) [2, 1]
        simp)

/-- C1, counterexample: for the 250-message source the limit-100 history
fetches return 100, 100, 49 and then 0 messages, not 100, 100, 50 and then
0 as claimed: the first message is consumed by the initial limit-1 probe
fetch, so the claimed fetch profile is wrong at the stated input. -/
theorem C1_counterexample :
    histReturns trace250 = [100, 100, 49, 0] ∧
    histReturns trace250 ≠ [100, 100, 50, 0] := by
  have h : histReturns trace250 = [100, 100, 49, 0] := by decide
  exact ⟨h, by rw [h]; decide⟩

/-- C1, amended: the engine first issues a limit-1 probe fetch after the
epoch returning 1 message, then exactly 3 limit-100 history fetches
returning 100, 100 and 49 messages, and terminates after a 4th limit-100
fetch returns no messages; every one of the 250 source messages has its
body reposted exactly once, with no duplicate and no skip at any batch
boundary of the strictly-after cursor walk. -/
theorem C1_amended :
    probeReturns trace250 = [1] ∧
    histReturns trace250 = [100, 100, 49, 0] ∧
    ((List.range 250).all fun i => (contentIds trace250).count (i + 1) == 1) = true := by
  refine ⟨by decide, by decide, by decide⟩

/-- C3, evaluation of the code at the failing input: three messages
authored A, B, A.  The claim (and the specification) expect one author
identity line per message, three in all, with each batch replayed oldest
first.  The code replays the after-cursor batch newest first (sendMessages
reverses a collection the platform already hands over in ascending order),
so message 3 is replayed directly after the probe message 1, shares its
author A and is suppressed: only two author lines appear and the bodies
are emitted in the order 1, 3, 2. -/
theorem C3_code_eval :
    authorLines traceAlt3 = [("A"), ("B")] ∧
    (authorLines traceAlt3).length = 2 ∧
    contentIds traceAlt3 = [1, 3, 2] := by
  decide
